import Mathlib

/-!
# Verification of the spreadsheet-to-signed-PDF batch job

Shallow embedding of `src/main.py`: the marker locator
(`find_text_coordinates`), the overlay composer and page-limit policy
(`add_signature_and_date`), the converter wrapper (`convert_xlsx_to_pdf`)
and the `main` pipeline, with theorems settling the specification claims.
-/

namespace Signer

/-! ## Module-level constants (src/main.py lines 18-31) -/

def SIGNATURE_MARKER : List Char := "Signature:".data

def DATE_MARKER : List Char := "Date:".data

def default_signature_coords : Int × Int := (250, 293)

def default_date_coords : Int × Int := (260, 259)

def default_signature_p2 : Int × Int := (230, 162)

def font_size : Nat := 9

def signature_width : Int := 120

def signature_height : Int := 30

def blank_image_width : Int := 80

def blank_image_height : Int := 10

def signature_width2 : Int := 160

def signature_height2 : Int := 20

/-- US Letter page height in points: `letter[1]` from reportlab is 792.0. -/
def PAGE_HEIGHT : Int := 792

/-! ## Character classes, ASCII model of Python's `str.lower`, `str.strip`,
regex `\d`, and word characters (for `\b`). -/

/-- Regex `\d` (ASCII model). -/
def isDigitC (c : Char) : Bool := '0' ≤ c && c ≤ '9'

/-- Regex word character `\w` (ASCII model): letters, digits, underscore. -/
def isWordC (c : Char) : Bool :=
  ('a' ≤ c && c ≤ 'z') || ('A' ≤ c && c ≤ 'Z') || isDigitC c || c = '_'

/-- Whitespace stripped by Python's `str.strip()` (ASCII model). -/
def isSpaceC (c : Char) : Bool :=
  c = ' ' || c = '\t' || c = '\n' || c = '\x0b' || c = '\x0c' || c = '\r'

/-- ASCII lower-casing, matching `str.lower` on ASCII text. -/
def lowerC (c : Char) : Char :=
  if 'A' ≤ c && c ≤ 'Z' then Char.ofNat (c.toNat + 32) else c

def lowerL (s : List Char) : List Char := s.map lowerC

/-- `str.strip()`: drop leading and trailing whitespace. -/
def stripWs (s : List Char) : List Char :=
  ((s.dropWhile isSpaceC).reverse.dropWhile isSpaceC).reverse

/-- Python's substring test `needle in hay`. -/
def containsSub (needle hay : List Char) : Bool :=
  (List.range (hay.length + 1)).any (fun j => needle.isPrefixOf (hay.drop j))

/-- The case-insensitive membership test `marker.lower() in line.lower()`
from line 109 of src/main.py. -/
def containsCI (marker line : List Char) : Bool :=
  containsSub (lowerL marker) (lowerL line)

/-! ## The date regex `\b(\d{1,2}/\d{1,2}/\d{4})\b` (DATE_PATTERN, line 21),
as used by `re.search`. -/

/-- Consume one `\d`. -/
def eatDigit (l : List Char) : Option (List Char) :=
  match l with
  | c :: r => if isDigitC c then some r else none
  | [] => none

/-- Consume one literal `/`. -/
def eatSlash (l : List Char) : Option (List Char) :=
  match l with
  | c :: r => if c = '/' then some r else none
  | [] => none

/-- Consume `\d{4}`. -/
def eat4 (l : List Char) : Option (List Char) :=
  (((eatDigit l).bind eatDigit).bind eatDigit).bind eatDigit

/-- Remainders of `l` after consuming one or two digits (`\d{1,2}`): the
backtracking alternatives of the greedy quantifier. -/
def after12 (l : List Char) : List (List Char) :=
  match eatDigit l with
  | none => []
  | some r1 =>
    match eatDigit r1 with
    | none => [r1]
    | some r2 => [r1, r2]

/-- `\b` holds after the final digit of the match: next char is a
non-word char, or end of string. -/
def boundaryAfter (rest : List Char) : Bool :=
  match rest with
  | [] => true
  | c :: _ => !isWordC c

/-- Match `/\d{4}\b` at the head of `r3` (the tail after the second digit
group). -/
def afterSlash4 (r3 : List Char) : Bool :=
  match eatSlash r3 with
  | none => false
  | some r4 =>
    match eat4 r4 with
    | none => false
    | some rest => boundaryAfter rest

/-- Match `/\d{1,2}/\d{4}\b` at the head of `r1` (the tail after the first
digit group). -/
def afterFirstSlash (r1 : List Char) : Bool :=
  match eatSlash r1 with
  | none => false
  | some r2 => (after12 r2).any afterSlash4

/-- Does `\d{1,2}/\d{1,2}/\d{4}\b` match at the head of `l`? -/
def chunkMatch (l : List Char) : Bool :=
  (after12 l).any afterFirstSlash

/-- `\b` holds before the first digit: previous char (if any) is non-word. -/
def boundaryBefore (prev : Option Char) : Bool :=
  match prev with
  | none => true
  | some p => !isWordC p

/-- Scan for a match of DATE_PATTERN anywhere, tracking the previous
character for the leading word boundary. -/
def dateSearchAux (prev : Option Char) (l : List Char) : Bool :=
  match l with
  | [] => false
  | c :: rest =>
    (boundaryBefore prev && chunkMatch (c :: rest)) || dateSearchAux (some c) rest

/-- `re.search(DATE_PATTERN, s)` is truthy. -/
def dateSearch (s : List Char) : Bool := dateSearchAux none s

/-! ## The marker locator `find_text_coordinates` (lines 101-121) -/

/-- What `page.extract_text()` can do: raise an exception, or return a
string (possibly empty). -/
inductive ExtractOutcome
  | raises
  | text (s : List Char)
deriving DecidableEq

/-- Python's `s.split('\n')`: always returns at least one (possibly empty)
piece. -/
def splitLines (s : List Char) : List (List Char) :=
  match s with
  | [] => [[]]
  | c :: rest =>
    if c = '\n' then [] :: splitLines rest
    else
      match splitLines rest with
      | l :: ls => (c :: l) :: ls
      | [] => [[c]]

/-- The `has_date` computation done at the matching line (lines 112-117):
`rest` is the list of lines after the matching one, so `lines[i+1]` is its
head when it exists, and the empty string otherwise. -/
def hasDateAt (marker line : List Char) (rest : List (List Char)) : Bool :=
  if marker = DATE_MARKER then
    let current_line := stripWs line
    let next_line :=
      match rest with
      | next :: _ => stripWs next
      | [] => []
    dateSearch current_line || dateSearch next_line
  else false

/-- The scanning loop of `find_text_coordinates` (lines 108-118):
`for i, line in enumerate(lines)`, where `i` is the index of the first
line of the remaining list. -/
def scanLines (marker : List Char) (i : Nat) :
    List (List Char) → Option (Int × Int) × Bool
  | [] => (none, false)
  | line :: rest =>
    if containsCI marker line then
      let y : Int := PAGE_HEIGHT - ((i : Int) + 1) * 20
      let x : Int := 100
      (some (x, y), hasDateAt marker line rest)
    else scanLines marker (i + 1) rest

/-- `find_text_coordinates(page, marker)`: extraction failure or empty
text gives `(None, False)`; otherwise scan the split lines from index 0. -/
def find_text_coordinates (page : ExtractOutcome) (marker : List Char) :
    Option (Int × Int) × Bool :=
  match page with
  | .raises => (none, false)
  | .text s =>
    if s = [] then (none, false)
    else scanLines marker 0 (splitLines s)

/-! ## Overlay drawing model (`canvas.drawImage` / `drawString`) -/

/-- The two raster images passed to `add_signature_and_date`. -/
inductive Img
  | signature
  | blank
deriving DecidableEq, Repr

/-- One drawing operation issued on an overlay canvas. -/
inductive DrawOp
  | drawImage (img : Img) (x y w h : Int)
  | drawString (x y : Int) (text : List Char) (fontSize : Nat)
deriving DecidableEq, Repr

/-- Is this a draw of the blank-line filler image? -/
def isBlankDraw (op : DrawOp) : Bool :=
  match op with
  | .drawImage .blank _ _ _ _ => true
  | _ => false

/-- Is this a text draw? -/
def isStringDraw (op : DrawOp) : Bool :=
  match op with
  | .drawString _ _ _ _ => true
  | _ => false

/-- The page-1 overlay (lines 131-148 of src/main.py): locate both markers,
apply fallbacks and the fixed `(+80, -10)` offset, draw the signature, and
draw the blank filler plus the date text only when no date was detected. -/
def composePage1 (page0 : ExtractOutcome) (date_text : List Char) : List DrawOp :=
  let sig_coords0 := (find_text_coordinates page0 SIGNATURE_MARKER).1
  let dres := find_text_coordinates page0 DATE_MARKER
  let date_coords := dres.1
  let has_date := dres.2
  let sc := sig_coords0.getD default_signature_coords
  let sc := (sc.1 + 80, sc.2 - 10)
  let dc := date_coords.getD default_date_coords
  let dc := (dc.1 + 80, dc.2 - 10)
  [DrawOp.drawImage .signature sc.1 sc.2 signature_width signature_height] ++
    (if has_date then []
     else
      [DrawOp.drawImage .blank dc.1 dc.2 blank_image_width blank_image_height,
       DrawOp.drawString dc.1 (dc.2 + blank_image_height / 2) date_text font_size])

/-- The page-2 overlay (lines 155-163): signature marker only, fallback
`default_signature_p2`, the same offset, one image draw at `160 × 20`. -/
def composePage2 (page1 : ExtractOutcome) : List DrawOp :=
  let sig_coords1 := (find_text_coordinates page1 SIGNATURE_MARKER).1
  let sc := sig_coords1.getD default_signature_p2
  let sc := (sc.1 + 80, sc.2 - 10)
  [DrawOp.drawImage .signature sc.1 sc.2 signature_width2 signature_height2]

/-- One page of the output document: the index of the source page it copies
and the overlay merged onto it (empty for verbatim copies). -/
structure OutPage where
  src : Nat
  overlay : List DrawOp
deriving DecidableEq

/-- `add_signature_and_date` (lines 123-176), with a source document given
as the extraction outcome of each of its pages.  `end_ix = min(19, total)`;
page 0 gets the page-1 overlay, page 1 (when present) the page-2 overlay,
and pages `2 .. end_ix-1` are copied verbatim. -/
def add_signature_and_date (pages : List ExtractOutcome) (date_text : List Char) :
    List OutPage :=
  let total := pages.length
  let end_ix := min 19 total
  let first : OutPage := ⟨0, composePage1 (pages.getD 0 .raises) date_text⟩
  if total > 1 then
    first :: ⟨1, composePage2 (pages.getD 1 .raises)⟩ ::
      (List.range' 2 (end_ix - 2)).map (fun k => ⟨k, []⟩)
  else
    first :: (List.range' 1 (end_ix - 1)).map (fun k => ⟨k, []⟩)

/-! ## Converter wrapper and the `main` pipeline (lines 33-99) -/

/-- Observable outcome of the `subprocess.run` call on the external
converter, together with whether the expected output file exists after. -/
structure ConvResult where
  returncode : Int
  stderr : List Char
  outputExists : Bool

/-- `convert_xlsx_to_pdf` (lines 83-99): succeed iff the converter exited
with status 0 and the output PDF exists; otherwise raise an error whose
message carries the captured diagnostic text. -/
def convert_xlsx_to_pdf (r : ConvResult) : Except (List Char) Unit :=
  if r.returncode = 0 && r.outputExists then Except.ok ()
  else Except.error ("Conversion failed: ".data ++ r.stderr)

/-- The run configuration read from `Actor.get_input()`: each key is
`none` when absent from the input. -/
structure InputData where
  xlsx_key : Option (List Char)
  signature_key : Option (List Char)
  blank_image_key : Option (List Char)

/-- A fatal error of the run. -/
inductive MainError
  | missingInput (msg : List Char)
  | conversionFailed (msg : List Char)
deriving DecidableEq

/-- Observable effects of one run of `main`. -/
structure MainEffects where
  result : Except MainError (List Char)
  tempFilesWritten : Bool
  converterInvoked : Bool
  outputWritten : Option (List Char)

/-- Python truthiness of an optional string (`not xlsx_key`). -/
def falsyStr (s : Option (List Char)) : Bool :=
  match s with
  | none => true
  | some l => l.isEmpty

/-- Python truthiness of a blob fetched from the store (`not xlsx_data`). -/
def falsyBlob (b : Option (List Nat)) : Bool :=
  match b with
  | none => true
  | some bs => bs.isEmpty

/-- `main` (lines 33-81), abstracted over the key-value store contents and
the converter outcome: check the xlsx key, fetch the three blobs, convert,
overlay, and store `signed_<xlsx_key>.pdf`.  The overlay step is total in
this model, so a successful conversion yields a stored output. -/
def main_run (input_data : InputData) (store : List Char → Option (List Nat))
    (conv : ConvResult) : MainEffects :=
  if falsyStr input_data.xlsx_key then
    ⟨.error (.missingInput "No XLSX file key provided in input".data), false, false, none⟩
  else
    let xlsx_key := input_data.xlsx_key.getD []
    let signature_key := input_data.signature_key.getD "signature.png".data
    let blank_image_key := input_data.blank_image_key.getD "line.png".data
    if falsyBlob (store xlsx_key) || falsyBlob (store signature_key) ||
        falsyBlob (store blank_image_key) then
      ⟨.error (.missingInput "One or more input files not found in key-value store".data),
        false, false, none⟩
    else
      match convert_xlsx_to_pdf conv with
      | .error msg => ⟨.error (.conversionFailed msg), true, true, none⟩
      | .ok _ =>
        let output_key := "signed_".data ++ xlsx_key ++ ".pdf".data
        ⟨.ok output_key, true, true, some output_key⟩

/-! ## Lemmas about the scanning loop -/

theorem scanLines_cons_not (marker : List Char) (i : Nat) (line : List Char)
    (rest : List (List Char)) (h : containsCI marker line = false) :
    scanLines marker i (line :: rest) = scanLines marker (i + 1) rest := by
  simp [scanLines, h]

theorem scanLines_cons_hit (marker : List Char) (i : Nat) (line : List Char)
    (rest : List (List Char)) (h : containsCI marker line = true) :
    scanLines marker i (line :: rest) =
      (some (100, PAGE_HEIGHT - ((i : Int) + 1) * 20), hasDateAt marker line rest) := by
  simp [scanLines, h]

theorem scanLines_of_none (marker : List Char) :
    ∀ (rest : List (List Char)) (i : Nat),
      (∀ l ∈ rest, containsCI marker l = false) →
      scanLines marker i rest = (none, false)
  | [], _, _ => rfl
  | line :: rest, i, h => by
    rw [scanLines_cons_not marker i line rest (h line (List.mem_cons_self _ _))]
    exact scanLines_of_none marker rest (i + 1) fun l hl => h l (List.mem_cons_of_mem _ hl)

theorem scanLines_of_split (marker : List Char) (pre : List (List Char))
    (line : List Char) (post : List (List Char))
    (hpre : ∀ l ∈ pre, containsCI marker l = false)
    (hline : containsCI marker line = true) :
    ∀ i : Nat,
      scanLines marker i (pre ++ line :: post) =
        (some (100, PAGE_HEIGHT - ((i : Int) + (pre.length : Int) + 1) * 20),
          hasDateAt marker line post) := by
  induction pre with
  | nil =>
    intro i
    rw [List.nil_append, scanLines_cons_hit marker i line post hline]
    simp only [Prod.mk.injEq, Option.some.injEq, List.length_nil, and_true, true_and]
    push_cast
    ring
  | cons a pre ih =>
    intro i
    rw [List.cons_append,
      scanLines_cons_not marker i a (pre ++ line :: post) (hpre a (List.mem_cons_self _ _)),
      ih (fun l hl => hpre l (List.mem_cons_of_mem _ hl)) (i + 1)]
    simp only [Prod.mk.injEq, Option.some.injEq, List.length_cons, and_true, true_and]
    push_cast
    ring

/-- `getD` agrees with `get` inside the bounds. -/
theorem getD_eq_get {α : Type} (l : List α) (d : α) (k : Nat)
    (hk : k < l.length) : l.getD k d = l.get ⟨k, hk⟩ := by
  simp [List.getD_eq_getElem?_getD, List.getElem?_eq_getElem hk,
    List.get_eq_getElem]

/-- Index form of `scanLines_of_split`: the first matching line at index
`k` determines the whole result of the scan. -/
theorem scanLines_of_first (marker : List Char) (k : Nat)
    (rest : List (List Char)) (hk : k < rest.length)
    (hmatch : containsCI marker (rest.getD k []) = true)
    (hprev : ∀ j : Nat, j < k → containsCI marker (rest.getD j []) = false) :
    scanLines marker 0 rest =
      (some (100, PAGE_HEIGHT - ((k : Int) + 1) * 20),
        hasDateAt marker (rest.getD k []) (rest.drop (k + 1))) := by
  rw [getD_eq_get rest [] k hk] at hmatch ⊢
  have hsplit : rest = rest.take k ++ rest.get ⟨k, hk⟩ :: rest.drop (k + 1) := by
    conv_lhs => rw [← List.take_append_drop k rest]
    rw [List.drop_eq_getElem_cons hk]
    rfl
  have hpre : ∀ l ∈ rest.take k, containsCI marker l = false := by
    intro l hl
    rw [List.mem_iff_getElem] at hl
    obtain ⟨j, hj, rfl⟩ := hl
    have hjk : j < k := by
      have := hj
      rw [List.length_take] at this
      omega
    have := hprev j hjk
    rw [getD_eq_get rest [] j (hjk.trans hk)] at this
    simpa [List.getElem_take, List.get_eq_getElem] using this
  have := scanLines_of_split marker (rest.take k) (rest.get ⟨k, hk⟩)
    (rest.drop (k + 1)) hpre hmatch 0
  conv_lhs => rw [hsplit]
  rw [this]
  simp only [Prod.mk.injEq, Option.some.injEq, and_true, true_and]
  rw [List.length_take]
  push_cast [Nat.min_eq_left (Nat.le_of_lt hk)]
  ring

theorem scanLines_snd_false_of_fst_none (marker : List Char) :
    ∀ (rest : List (List Char)) (i : Nat),
      (scanLines marker i rest).1 = none → (scanLines marker i rest).2 = false
  | [], _, _ => rfl
  | line :: rest, i, h => by
    by_cases hc : containsCI marker line = true
    · simp [scanLines, hc] at h
    · rw [Bool.not_eq_true] at hc
      rw [scanLines_cons_not marker i line rest hc] at h ⊢
      exact scanLines_snd_false_of_fst_none marker rest (i + 1) h

/-- The locator's "no date detected" component is `false` whenever its
coordinate component is absent. -/
theorem find_snd_false_of_fst_none (page : ExtractOutcome) (marker : List Char)
    (h : (find_text_coordinates page marker).1 = none) :
    (find_text_coordinates page marker).2 = false := by
  cases page with
  | raises => rfl
  | text s =>
    by_cases hs : s = []
    · simp [find_text_coordinates, hs]
    · simp only [find_text_coordinates, if_neg hs] at h ⊢
      exact scanLines_snd_false_of_fst_none marker (splitLines s) 0 h

/-! ## C1: output page count and page order -/

/-- C1: for every (nonempty) source document the output has
`min(source page count, 19)` pages, and the output pages are the source
pages `0, 1, 2, …` in order (so a 19-page input keeps all pages, a 20-page
input drops exactly the last one, and a 1-page input yields one page). -/
theorem spec_C1 (pages : List ExtractOutcome) (d : List Char)
    (h : 0 < pages.length) :
    (add_signature_and_date pages d).length = min pages.length 19 ∧
    (add_signature_and_date pages d).map OutPage.src =
      List.range (min pages.length 19) := by
  unfold add_signature_and_date
  by_cases h2 : pages.length > 1
  · rw [if_pos h2]
    have hmin : 2 ≤ min 19 pages.length := by omega
    obtain ⟨m, hm⟩ : ∃ m, min 19 pages.length = m + 2 := ⟨min 19 pages.length - 2, by omega⟩
    constructor
    · simp only [List.length_cons, List.length_map, List.length_range']
      omega
    · have hrange : List.range (min pages.length 19) = 0 :: 1 :: List.range' 2 m := by
        rw [List.range_eq_range', Nat.min_comm, hm]
        rw [List.range'_succ, List.range'_succ]
      rw [hrange, hm, Nat.add_sub_cancel]
      simp only [List.map_cons, List.map_map]
      have hid : (OutPage.src ∘ fun k => (⟨k, []⟩ : OutPage)) = id := rfl
      rw [hid, List.map_id]
  · rw [if_neg h2]
    have h1 : pages.length = 1 := by omega
    rw [h1]
    refine ⟨by simp, ?_⟩
    simp only [Nat.min_def]
    norm_num
    decide

/-- C1 witness: a concrete 20-page document yields exactly 19 pages, in
source order. -/
theorem spec_C1_witness :
    (add_signature_and_date (List.replicate 20 ExtractOutcome.raises) []).length = 19 ∧
    (add_signature_and_date (List.replicate 20 ExtractOutcome.raises) []).map OutPage.src =
      List.range 19 := by
  have h := spec_C1 (List.replicate 20 ExtractOutcome.raises) [] (by decide)
  simpa using h

/-! ## C7: the locator never raises, degrading to `(absent, false)` -/

/-- C7: an extraction failure, or empty extracted text, makes the locator
return `(absent, false)` (the locator is a total function, so it never
raises), and the composer then resolves both markers to the documented
default coordinates, adjusted by `(+80, -10)`. -/
theorem spec_C7 (marker : List Char) (d : List Char) :
    find_text_coordinates ExtractOutcome.raises marker = (none, false) ∧
    find_text_coordinates (ExtractOutcome.text []) marker = (none, false) ∧
    composePage1 ExtractOutcome.raises d =
      [DrawOp.drawImage Img.signature 330 283 120 30,
       DrawOp.drawImage Img.blank 340 249 80 10,
       DrawOp.drawString 340 254 d 9] ∧
    composePage2 ExtractOutcome.raises =
      [DrawOp.drawImage Img.signature 310 152 160 20] := by
  refine ⟨rfl, rfl, ?_, rfl⟩
  simp [composePage1, find_text_coordinates, default_date_coords,
    default_signature_coords, signature_width, signature_height,
    blank_image_width, blank_image_height, font_size]

/-! ## Whitespace characters and the date pattern -/

theorem space_not_digit {c : Char} (h : isSpaceC c = true) : isDigitC c = false := by
  simp only [isSpaceC, Bool.or_eq_true, decide_eq_true_eq] at h
  rcases h with ((((h | h) | h) | h) | h) | h <;> subst h <;> decide

theorem space_not_word {c : Char} (h : isSpaceC c = true) : isWordC c = false := by
  simp only [isSpaceC, Bool.or_eq_true, decide_eq_true_eq] at h
  rcases h with ((((h | h) | h) | h) | h) | h <;> subst h <;> decide

theorem space_ne_slash {c : Char} (h : isSpaceC c = true) : c ≠ '/' := by
  simp only [isSpaceC, Bool.or_eq_true, decide_eq_true_eq] at h
  rcases h with ((((h | h) | h) | h) | h) | h <;> subst h <;> decide

theorem eatDigit_append {w : List Char} (hw : ∀ c ∈ w, isSpaceC c = true) :
    ∀ l : List Char, eatDigit (l ++ w) = (eatDigit l).map (· ++ w)
  | [] => by
    cases w with
    | nil => rfl
    | cons c r =>
      simp [eatDigit, space_not_digit (hw c (List.mem_cons_self _ _))]
  | c :: r => by
    by_cases h : isDigitC c = true
    · simp [eatDigit, h]
    · rw [Bool.not_eq_true] at h
      simp [eatDigit, h]

theorem eatSlash_append {w : List Char} (hw : ∀ c ∈ w, isSpaceC c = true) :
    ∀ l : List Char, eatSlash (l ++ w) = (eatSlash l).map (· ++ w)
  | [] => by
    cases w with
    | nil => rfl
    | cons c r =>
      simp [eatSlash, space_ne_slash (hw c (List.mem_cons_self _ _))]
  | c :: r => by
    by_cases h : c = '/' <;> simp [eatSlash, h]

theorem map_append_bind {w : List Char} {g : List Char → Option (List Char)}
    (hg : ∀ l, g (l ++ w) = (g l).map (· ++ w)) (o : Option (List Char)) :
    (o.map (· ++ w)).bind g = (o.bind g).map (· ++ w) := by
  cases o with
  | none => rfl
  | some r => simpa using hg r

theorem eat4_append {w : List Char} (hw : ∀ c ∈ w, isSpaceC c = true)
    (l : List Char) : eat4 (l ++ w) = (eat4 l).map (· ++ w) := by
  unfold eat4
  rw [eatDigit_append hw, map_append_bind (eatDigit_append hw),
    map_append_bind (eatDigit_append hw), map_append_bind (eatDigit_append hw)]

theorem after12_append {w : List Char} (hw : ∀ c ∈ w, isSpaceC c = true)
    (l : List Char) : after12 (l ++ w) = (after12 l).map (· ++ w) := by
  unfold after12
  rw [eatDigit_append hw]
  cases eatDigit l with
  | none => rfl
  | some r1 =>
    simp only [Option.map_some']
    rw [eatDigit_append hw]
    cases eatDigit r1 <;> simp

theorem boundaryAfter_append {w : List Char} (hw : ∀ c ∈ w, isSpaceC c = true)
    (rest : List Char) : boundaryAfter (rest ++ w) = boundaryAfter rest := by
  cases rest with
  | nil =>
    cases w with
    | nil => rfl
    | cons c r =>
      simp [boundaryAfter, space_not_word (hw c (List.mem_cons_self _ _))]
  | cons c r => rfl

theorem afterSlash4_append {w : List Char} (hw : ∀ c ∈ w, isSpaceC c = true)
    (r3 : List Char) : afterSlash4 (r3 ++ w) = afterSlash4 r3 := by
  unfold afterSlash4
  rw [eatSlash_append hw]
  cases eatSlash r3 with
  | none => rfl
  | some r4 =>
    simp only [Option.map_some']
    rw [eat4_append hw]
    cases eat4 r4 with
    | none => rfl
    | some rest =>
      simp only [Option.map_some']
      exact boundaryAfter_append hw rest

theorem afterFirstSlash_append {w : List Char} (hw : ∀ c ∈ w, isSpaceC c = true)
    (r1 : List Char) : afterFirstSlash (r1 ++ w) = afterFirstSlash r1 := by
  unfold afterFirstSlash
  rw [eatSlash_append hw]
  cases eatSlash r1 with
  | none => rfl
  | some r2 =>
    simp only [Option.map_some']
    rw [after12_append hw, List.any_map]
    have he : (afterSlash4 ∘ (· ++ w)) = afterSlash4 :=
      funext fun r3 => afterSlash4_append hw r3
    rw [he]

theorem chunkMatch_append {w : List Char} (hw : ∀ c ∈ w, isSpaceC c = true)
    (l : List Char) : chunkMatch (l ++ w) = chunkMatch l := by
  unfold chunkMatch
  rw [after12_append hw, List.any_map]
  have he : (afterFirstSlash ∘ (· ++ w)) = afterFirstSlash :=
    funext fun r1 => afterFirstSlash_append hw r1
  rw [he]

theorem chunkMatch_space_head {c : Char} {r : List Char}
    (hc : isSpaceC c = true) : chunkMatch (c :: r) = false := by
  unfold chunkMatch after12
  simp [eatDigit, space_not_digit hc]

theorem dateSearchAux_congr_prev {p q : Option Char}
    (h : boundaryBefore p = boundaryBefore q) :
    ∀ l, dateSearchAux p l = dateSearchAux q l
  | [] => rfl
  | c :: r => by simp only [dateSearchAux, h]

theorem dateSearchAux_of_allSpace :
    ∀ (w : List Char), (∀ c ∈ w, isSpaceC c = true) →
      ∀ prev, dateSearchAux prev w = false
  | [], _, _ => rfl
  | c :: r, h, prev => by
    have hc := h c (List.mem_cons_self _ _)
    simp only [dateSearchAux, chunkMatch_space_head hc, Bool.and_false,
      Bool.false_or]
    exact dateSearchAux_of_allSpace r (fun x hx => h x (List.mem_cons_of_mem _ hx)) (some c)

theorem dateSearchAux_append {w : List Char} (hw : ∀ c ∈ w, isSpaceC c = true)
    (l : List Char) : ∀ prev, dateSearchAux prev (l ++ w) = dateSearchAux prev l := by
  induction l with
  | nil =>
    intro prev
    simpa using dateSearchAux_of_allSpace w hw prev
  | cons c r ih =>
    intro prev
    simp only [List.cons_append, dateSearchAux, List.append_eq]
    rw [← List.cons_append, chunkMatch_append hw, ih (some c)]

theorem dateSearch_dropWhile (l : List Char) :
    dateSearch (l.dropWhile isSpaceC) = dateSearch l := by
  induction l with
  | nil => rfl
  | cons c r ih =>
    by_cases hc : isSpaceC c = true
    · have h1 : dateSearch (c :: r) = dateSearch r := by
        unfold dateSearch
        simp only [dateSearchAux, boundaryBefore, chunkMatch_space_head hc,
          Bool.and_false, Bool.false_or]
        exact dateSearchAux_congr_prev (by simp [boundaryBefore, space_not_word hc]) r
      rw [List.dropWhile_cons, if_pos hc, ih, h1]
    · rw [Bool.not_eq_true] at hc
      rw [List.dropWhile_cons, if_neg (by simp [hc])]

theorem strip_decomp (l : List Char) :
    ∃ w, (∀ c ∈ w, isSpaceC c = true) ∧
      l.dropWhile isSpaceC = stripWs l ++ w := by
  refine ⟨((l.dropWhile isSpaceC).reverse.takeWhile isSpaceC).reverse,
    fun c hc => List.mem_takeWhile_imp (List.mem_reverse.mp hc), ?_⟩
  have key : l.dropWhile isSpaceC =
      ((l.dropWhile isSpaceC).reverse.dropWhile isSpaceC).reverse ++
        ((l.dropWhile isSpaceC).reverse.takeWhile isSpaceC).reverse := by
    rw [← List.reverse_append, List.takeWhile_append_dropWhile, List.reverse_reverse]
  exact key

/-- Stripping leading and trailing whitespace does not change whether the
date pattern occurs: the code's `line.strip()` is invisible to the
`re.search` on `DATE_PATTERN`. -/
theorem dateSearch_stripWs (l : List Char) :
    dateSearch (stripWs l) = dateSearch l := by
  obtain ⟨w, hw, hd⟩ := strip_decomp l
  rw [← dateSearch_dropWhile l, hd]
  exact (dateSearchAux_append hw (stripWs l) none).symm

/-! ## C2: line-by-line case-insensitive marker search -/

theorem containsSub_map (f : Char → Char) (n h : List Char)
    (hc : containsSub n h = true) : containsSub (n.map f) (h.map f) = true := by
  unfold containsSub at hc ⊢
  rw [List.any_eq_true] at hc ⊢
  obtain ⟨j, hj, hp⟩ := hc
  rw [List.mem_range] at hj
  refine ⟨j, by rw [List.mem_range, List.length_map]; exact hj, ?_⟩
  rw [List.isPrefixOf_iff_prefix] at hp ⊢
  rw [← List.map_drop]
  obtain ⟨t, ht⟩ := hp
  exact ⟨t.map f, by rw [← List.map_append, ht]⟩

/-- A line containing the upper-cased marker still matches, because both
sides are lower-cased before the substring test. -/
theorem containsCI_of_upper (line : List Char)
    (h : containsSub "SIGNATURE:".data line = true) :
    containsCI SIGNATURE_MARKER line = true := by
  have h2 := containsSub_map lowerC "SIGNATURE:".data line h
  have he : "SIGNATURE:".data.map lowerC = SIGNATURE_MARKER.map lowerC := by decide
  rw [he] at h2
  exact h2

/-- C2: the locator does a case-insensitive substring search line by line
in order: no matching line gives `(absent, false)`; a first match at index
`k` gives coordinate `x = 100`, `y = 792 - (k + 1) * 20`; and a line
containing `"SIGNATURE:"` matches the `"Signature:"` marker. -/
theorem spec_C2 (s marker : List Char) (hs : s ≠ []) :
    ((∀ l ∈ splitLines s, containsCI marker l = false) →
      find_text_coordinates (ExtractOutcome.text s) marker = (none, false)) ∧
    (∀ k : Nat, k < (splitLines s).length →
      containsCI marker ((splitLines s).getD k []) = true →
      (∀ j : Nat, j < k →
        containsCI marker ((splitLines s).getD j []) = false) →
      (find_text_coordinates (ExtractOutcome.text s) marker).1 =
        some (100, PAGE_HEIGHT - ((k : Int) + 1) * 20)) ∧
    (∀ line : List Char, containsSub "SIGNATURE:".data line = true →
      containsCI SIGNATURE_MARKER line = true) := by
  refine ⟨?_, ?_, fun line h => containsCI_of_upper line h⟩
  · intro hall
    simp only [find_text_coordinates]
    rw [if_neg hs]
    exact scanLines_of_none marker (splitLines s) 0 hall
  · intro k hk hmatch hprev
    simp only [find_text_coordinates]
    rw [if_neg hs, scanLines_of_first marker k _ hk hmatch hprev]

/-- C2 witness: on the concrete text `"foo\nSIGNATURE: x"` the marker
`"Signature:"` first matches at line index 1, giving `(100, 752)`. -/
theorem spec_C2_witness :
    (find_text_coordinates (ExtractOutcome.text "foo\nSIGNATURE: x".data)
      SIGNATURE_MARKER).1 = some (100, 752) := by
  have h := (spec_C2 "foo\nSIGNATURE: x".data SIGNATURE_MARKER (by decide)).2.1
    1 (by decide) (by decide)
    (fun j hj => by
      have hj0 : j = 0 := by omega
      subst hj0
      decide)
  rw [h]
  norm_num [PAGE_HEIGHT]

/-! ## C3: date detection on the matched line and its successor -/

/-- C3: when the date marker first matches at line index `k`,
`dateAlreadyPresent` is exactly "the matched line, or the immediately
following line when one exists, contains a substring matching
`\b(\d{1,2}/\d{1,2}/\d{4})\b`" (for a match on the last line only that
line is inspected, the missing successor contributing `false`). -/
theorem hasDateAt_date (line : List Char) (rest : List (List Char)) :
    hasDateAt DATE_MARKER line rest =
      (dateSearch line || dateSearch (rest.getD 0 [])) := by
  cases rest with
  | nil => simp [hasDateAt, dateSearch_stripWs]
  | cons next t => simp [hasDateAt, dateSearch_stripWs]

theorem spec_C3 (s : List Char) (hs : s ≠ []) (k : Nat)
    (hk : k < (splitLines s).length)
    (hmatch : containsCI DATE_MARKER ((splitLines s).getD k []) = true)
    (hprev : ∀ j : Nat, j < k →
      containsCI DATE_MARKER ((splitLines s).getD j []) = false) :
    (find_text_coordinates (ExtractOutcome.text s) DATE_MARKER).2 =
      (dateSearch ((splitLines s).getD k []) ||
        dateSearch ((splitLines s).getD (k + 1) [])) := by
  simp only [find_text_coordinates]
  rw [if_neg hs, scanLines_of_first DATE_MARKER k _ hk hmatch hprev]
  show hasDateAt DATE_MARKER _ _ = _
  rw [hasDateAt_date]
  congr 1
  simp [List.getD_eq_getElem?_getD, List.getElem?_drop]

/-- C3 witness: for the text `"Date:\n10/12/2026"` the marker matches at
line 0 and the next line carries a date, so `dateAlreadyPresent = true`,
matching `dateSearch` on the unstripped lines. -/
theorem spec_C3_witness :
    (find_text_coordinates (ExtractOutcome.text "Date:\n10/12/2026".data)
      DATE_MARKER).2 = true := by
  have h := spec_C3 "Date:\n10/12/2026".data (by decide) 0 (by decide) (by decide)
    (fun j hj => absurd hj (Nat.not_lt_zero j))
  rw [h]
  decide

/-! ## C10: unclamped negative y for late matches -/

/-- C10: a first match at line index `k ≥ 39` yields
`y = 792 - (k + 1) * 20 ≤ -8 < 0`; the coordinate is not clamped to the
page. -/
theorem spec_C10 (s marker : List Char) (hs : s ≠ []) (k : Nat)
    (hk : k < (splitLines s).length)
    (hmatch : containsCI marker ((splitLines s).getD k []) = true)
    (hprev : ∀ j : Nat, j < k →
      containsCI marker ((splitLines s).getD j []) = false)
    (h39 : 39 ≤ k) :
    ∃ y : Int, (find_text_coordinates (ExtractOutcome.text s) marker).1 =
        some (100, y) ∧
      y = PAGE_HEIGHT - ((k : Int) + 1) * 20 ∧ y ≤ -8 := by
  refine ⟨PAGE_HEIGHT - ((k : Int) + 1) * 20, ?_, rfl, ?_⟩
  · simp only [find_text_coordinates]
    rw [if_neg hs, scanLines_of_first marker k _ hk hmatch hprev]
  · have h39' : (39 : Int) ≤ (k : Int) := by exact_mod_cast h39
    simp only [PAGE_HEIGHT]
    omega

/-- C10 witness: a 40-line page whose last line holds the signature marker
puts the computed overlay coordinate at `y = -8`, below the page bottom. -/
theorem spec_C10_witness :
    (find_text_coordinates
      (ExtractOutcome.text (List.replicate 39 '\n' ++ "Signature:".data))
      SIGNATURE_MARKER).1 = some (100, -8) ∧ (-8 : Int) < 0 := by
  obtain ⟨y, h1, h2, _⟩ := spec_C10 (List.replicate 39 '\n' ++ "Signature:".data)
    SIGNATURE_MARKER (by decide) 39 (by decide) (by decide)
    (fun j hj => by interval_cases j <;> decide) (by norm_num)
  have hy : y = -8 := by rw [h2]; norm_num [PAGE_HEIGHT]
  rw [hy] at h1
  exact ⟨h1, by norm_num⟩

/-! ## C4, C5: page-1 overlay composition -/

/-- Closed form of the page-1 overlay. -/
theorem composePage1_eq (p : ExtractOutcome) (d : List Char) :
    composePage1 p d =
      DrawOp.drawImage Img.signature
        (((find_text_coordinates p SIGNATURE_MARKER).1.getD default_signature_coords).1 + 80)
        (((find_text_coordinates p SIGNATURE_MARKER).1.getD default_signature_coords).2 - 10)
        signature_width signature_height ::
      (if (find_text_coordinates p DATE_MARKER).2 then []
       else
        [DrawOp.drawImage Img.blank
          (((find_text_coordinates p DATE_MARKER).1.getD default_date_coords).1 + 80)
          (((find_text_coordinates p DATE_MARKER).1.getD default_date_coords).2 - 10)
          blank_image_width blank_image_height,
         DrawOp.drawString
          (((find_text_coordinates p DATE_MARKER).1.getD default_date_coords).1 + 80)
          (((find_text_coordinates p DATE_MARKER).1.getD default_date_coords).2 - 10 +
            blank_image_height / 2)
          d font_size]) := rfl

/-- C4: on page 1, when a date is already present neither the blank filler
nor the date text is drawn; otherwise the 80×10 blank filler is drawn at
the adjusted date coordinate `(x, y)` and the date text at `(x, y + 5)` in
a 9-point font. -/
theorem spec_C4 (p : ExtractOutcome) (d : List Char) :
    ((find_text_coordinates p DATE_MARKER).2 = true →
      ∀ op ∈ composePage1 p d, isBlankDraw op = false ∧ isStringDraw op = false) ∧
    ((find_text_coordinates p DATE_MARKER).2 = false →
      DrawOp.drawImage Img.blank
          (((find_text_coordinates p DATE_MARKER).1.getD default_date_coords).1 + 80)
          (((find_text_coordinates p DATE_MARKER).1.getD default_date_coords).2 - 10)
          80 10 ∈ composePage1 p d ∧
        DrawOp.drawString
          (((find_text_coordinates p DATE_MARKER).1.getD default_date_coords).1 + 80)
          (((find_text_coordinates p DATE_MARKER).1.getD default_date_coords).2 - 10 + 5)
          d 9 ∈ composePage1 p d) := by
  constructor
  · intro hd op hop
    rw [composePage1_eq, hd] at hop
    simp only [if_true, List.mem_singleton] at hop
    subst hop
    exact ⟨rfl, rfl⟩
  · intro hd
    rw [composePage1_eq, hd]
    constructor
    · simp [blank_image_width, blank_image_height]
    · simp [blank_image_width, blank_image_height, font_size]

/-- C4 witness: a page whose extraction raises has no date, so the blank
filler and the date text are drawn at the adjusted default date
coordinate. -/
theorem spec_C4_witness :
    DrawOp.drawImage Img.blank 340 249 80 10 ∈
      composePage1 ExtractOutcome.raises "d".data ∧
    DrawOp.drawString 340 254 "d".data 9 ∈
      composePage1 ExtractOutcome.raises "d".data := by
  have h := (spec_C4 ExtractOutcome.raises "d".data).2 rfl
  constructor
  · have h1 := h.1
    simpa [find_text_coordinates, default_date_coords] using h1
  · have h2 := h.2
    simpa [find_text_coordinates, default_date_coords] using h2

/-- C5: on page 1, an absent signature marker falls back to `(250, 293)`
and an absent date marker to `(260, 259)`; in every case the coordinates
are adjusted by `(+80, -10)` before drawing, and the signature image is
drawn at `120 × 30`. -/
theorem spec_C5 (p : ExtractOutcome) (d : List Char) :
    ((find_text_coordinates p SIGNATURE_MARKER).1 = none →
      DrawOp.drawImage Img.signature (250 + 80) (293 - 10) 120 30 ∈
        composePage1 p d) ∧
    ((find_text_coordinates p DATE_MARKER).1 = none →
      DrawOp.drawImage Img.blank (260 + 80) (259 - 10) 80 10 ∈
        composePage1 p d) ∧
    (∀ x y : Int,
      (find_text_coordinates p SIGNATURE_MARKER).1.getD default_signature_coords = (x, y) →
      DrawOp.drawImage Img.signature (x + 80) (y - 10) 120 30 ∈
        composePage1 p d) ∧
    (∀ x y : Int,
      (find_text_coordinates p DATE_MARKER).2 = false →
      (find_text_coordinates p DATE_MARKER).1.getD default_date_coords = (x, y) →
      DrawOp.drawImage Img.blank (x + 80) (y - 10) 80 10 ∈
        composePage1 p d) := by
  refine ⟨?_, ?_, ?_, ?_⟩
  · intro hn
    simp [composePage1_eq, hn, default_signature_coords, signature_width,
      signature_height]
  · intro hn
    have h2 := find_snd_false_of_fst_none p DATE_MARKER hn
    simp [composePage1_eq, hn, h2, default_date_coords, blank_image_width,
      blank_image_height]
  · intro x y hxy
    simp [composePage1_eq, hxy, signature_width, signature_height]
  · intro x y hd hxy
    simp [composePage1_eq, hd, hxy, blank_image_width, blank_image_height]

/-- C5 witness: with extraction raising, both markers are absent and the
draws land on the adjusted default coordinates. -/
theorem spec_C5_witness :
    DrawOp.drawImage Img.signature (250 + 80) (293 - 10) 120 30 ∈
      composePage1 ExtractOutcome.raises [] ∧
    DrawOp.drawImage Img.blank (260 + 80) (259 - 10) 80 10 ∈
      composePage1 ExtractOutcome.raises [] :=
  ⟨(spec_C5 ExtractOutcome.raises []).1 rfl,
   (spec_C5 ExtractOutcome.raises []).2.1 rfl⟩

/-! ## C6: page-2 composition -/

/-- C6: page-2 composition happens exactly when the source has at least 2
pages (a 1-page document yields only the page-1 output); it draws only the
signature image, at `160 × 20`, at the located-or-default coordinate
adjusted by `(+80, -10)`, with fallback `(230, 162)`; it performs no date
detection or date drawing (its overlay is a single signature image). -/
theorem spec_C6 (pages : List ExtractOutcome) (d : List Char) :
    (2 ≤ pages.length →
      (add_signature_and_date pages d).getD 1 ⟨0, []⟩ =
        ⟨1, composePage2 (pages.getD 1 ExtractOutcome.raises)⟩) ∧
    (pages.length = 1 →
      add_signature_and_date pages d =
        [⟨0, composePage1 (pages.getD 0 ExtractOutcome.raises) d⟩]) ∧
    (∀ p : ExtractOutcome,
      composePage2 p =
        [DrawOp.drawImage Img.signature
          (((find_text_coordinates p SIGNATURE_MARKER).1.getD default_signature_p2).1 + 80)
          (((find_text_coordinates p SIGNATURE_MARKER).1.getD default_signature_p2).2 - 10)
          160 20]) ∧
    (∀ p : ExtractOutcome, (find_text_coordinates p SIGNATURE_MARKER).1 = none →
      composePage2 p =
        [DrawOp.drawImage Img.signature (230 + 80) (162 - 10) 160 20]) := by
  refine ⟨?_, ?_, fun p => rfl, ?_⟩
  · intro h2
    unfold add_signature_and_date
    rw [if_pos (by omega)]
    simp [List.getD_cons_succ, List.getD_cons_zero]
  · intro h1
    unfold add_signature_and_date
    rw [if_neg (by omega), h1]
    simp
  · intro p hp
    simp [composePage2, hp, default_signature_p2, signature_width2,
      signature_height2]

/-- C6 witness: a concrete 2-page document gets a page-2 overlay that is a
single signature image at the adjusted fallback coordinate. -/
theorem spec_C6_witness :
    (add_signature_and_date [ExtractOutcome.raises, ExtractOutcome.raises] []).getD 1 ⟨0, []⟩ =
      ⟨1, composePage2 ExtractOutcome.raises⟩ ∧
    composePage2 ExtractOutcome.raises =
      [DrawOp.drawImage Img.signature (230 + 80) (162 - 10) 160 20] := by
  have h := spec_C6 [ExtractOutcome.raises, ExtractOutcome.raises] []
  exact ⟨h.1 (by decide), h.2.2.2 ExtractOutcome.raises rfl⟩

/-! ## C8: missing-input failures -/

/-- C8: a missing spreadsheet key, or any of the three blobs absent from
the store, fails the run with a missing-input error before any temp file
is written and before the converter is invoked, and no output blob is
produced. -/
theorem spec_C8 (input_data : InputData)
    (store : List Char → Option (List Nat)) (conv : ConvResult) :
    (input_data.xlsx_key = none →
      main_run input_data store conv =
        ⟨.error (.missingInput "No XLSX file key provided in input".data),
          false, false, none⟩) ∧
    ((store (input_data.xlsx_key.getD []) = none ∨
        store (input_data.signature_key.getD "signature.png".data) = none ∨
        store (input_data.blank_image_key.getD "line.png".data) = none) →
      (main_run input_data store conv).tempFilesWritten = false ∧
      (main_run input_data store conv).converterInvoked = false ∧
      (main_run input_data store conv).outputWritten = none ∧
      ∃ m, (main_run input_data store conv).result =
        .error (.missingInput m)) := by
  constructor
  · intro hx
    simp [main_run, hx, falsyStr]
  · intro hmiss
    by_cases hx : falsyStr input_data.xlsx_key = true
    · have : main_run input_data store conv =
          ⟨.error (.missingInput "No XLSX file key provided in input".data),
            false, false, none⟩ := by
        simp only [main_run]
        rw [if_pos hx]
      rw [this]
      exact ⟨rfl, rfl, rfl, _, rfl⟩
    · have hblob : (falsyBlob (store (input_data.xlsx_key.getD [])) ||
          falsyBlob (store (input_data.signature_key.getD "signature.png".data)) ||
          falsyBlob (store (input_data.blank_image_key.getD "line.png".data))) = true := by
        rcases hmiss with hm | hm | hm <;> simp [falsyBlob, hm]
      have : main_run input_data store conv =
          ⟨.error (.missingInput
              "One or more input files not found in key-value store".data),
            false, false, none⟩ := by
        simp only [main_run]
        rw [if_neg hx, if_pos hblob]
      rw [this]
      exact ⟨rfl, rfl, rfl, _, rfl⟩

/-- C8 witness: no xlsx key at all fails immediately with a missing-input
error, no converter call and no output. -/
theorem spec_C8_witness :
    main_run ⟨none, none, none⟩ (fun _ => none) ⟨0, [], true⟩ =
      ⟨.error (.missingInput "No XLSX file key provided in input".data),
        false, false, none⟩ :=
  (spec_C8 ⟨none, none, none⟩ (fun _ => none) ⟨0, [], true⟩).1 rfl

/-! ## C9: conversion failure -/

/-- C9: the conversion step fails — carrying the captured diagnostic text —
if and only if the converter exits nonzero or the expected output PDF is
missing; in a run that passed the input checks this aborts the run with a
conversion-failure error and no output blob is stored. -/
theorem spec_C9 (input_data : InputData)
    (store : List Char → Option (List Nat)) (conv : ConvResult)
    (hkey : falsyStr input_data.xlsx_key = false)
    (hblobs : (falsyBlob (store (input_data.xlsx_key.getD [])) ||
      falsyBlob (store (input_data.signature_key.getD "signature.png".data)) ||
      falsyBlob (store (input_data.blank_image_key.getD "line.png".data))) = false) :
    ((∃ m, convert_xlsx_to_pdf conv = .error m) ↔
      ¬(conv.returncode = 0 ∧ conv.outputExists = true)) ∧
    (∀ m, convert_xlsx_to_pdf conv = .error m →
      m = "Conversion failed: ".data ++ conv.stderr) ∧
    (¬(conv.returncode = 0 ∧ conv.outputExists = true) →
      (main_run input_data store conv).result =
        .error (.conversionFailed ("Conversion failed: ".data ++ conv.stderr)) ∧
      (main_run input_data store conv).outputWritten = none) := by
  have hiff : ((conv.returncode = 0 && conv.outputExists) = true) ↔
      (conv.returncode = 0 ∧ conv.outputExists = true) := by
    simp [Bool.and_eq_true, decide_eq_true_eq]
  refine ⟨⟨?_, ?_⟩, ?_, ?_⟩
  · rintro ⟨m, hm⟩ hand
    unfold convert_xlsx_to_pdf at hm
    rw [if_pos (hiff.mpr hand)] at hm
    cases hm
  · intro hnot
    refine ⟨"Conversion failed: ".data ++ conv.stderr, ?_⟩
    unfold convert_xlsx_to_pdf
    rw [if_neg (fun hc => hnot (hiff.mp hc))]
  · intro m hm
    unfold convert_xlsx_to_pdf at hm
    by_cases hcond : (conv.returncode = 0 && conv.outputExists) = true
    · rw [if_pos hcond] at hm
      cases hm
    · rw [if_neg hcond] at hm
      injection hm with h
      exact h.symm
  · intro hnot
    have herr : convert_xlsx_to_pdf conv =
        .error ("Conversion failed: ".data ++ conv.stderr) := by
      unfold convert_xlsx_to_pdf
      rw [if_neg (fun hc => hnot (hiff.mp hc))]
    have hrun : main_run input_data store conv =
        ⟨.error (.conversionFailed ("Conversion failed: ".data ++ conv.stderr)),
          true, true, none⟩ := by
      simp only [main_run]
      rw [if_neg (by simp [hkey]), if_neg (by simp [hblobs]), herr]
    rw [hrun]
    exact ⟨rfl, rfl⟩

/-- C9 witness: a converter exiting with status 1 fails the run with a
conversion-failure error carrying the captured stderr, and stores no
output. -/
theorem spec_C9_witness :
    (main_run ⟨some "a".data, none, none⟩ (fun _ => some [1])
        ⟨1, "boom".data, true⟩).result =
      .error (.conversionFailed ("Conversion failed: ".data ++ "boom".data)) ∧
    (main_run ⟨some "a".data, none, none⟩ (fun _ => some [1])
        ⟨1, "boom".data, true⟩).outputWritten = none :=
  (spec_C9 ⟨some "a".data, none, none⟩ (fun _ => some [1])
    ⟨1, "boom".data, true⟩ (by decide) (by decide)).2.2 (by decide)

end Signer
